import Mathlib

/-!
Shallow embedding of the prediction-market contract in
`src/contract/src/lib.rs` (a NEAR smart contract).

Host model (NEAR runtime): each entry point runs to completion atomically;
a `require!` failure or `env::panic_str` aborts the call and the runtime
commits none of the call's state writes.  We embed each entry point as a
function `Contract → args → Except ContractError result`, where an `.error`
outcome commits no state; `run*` wrappers make that rollback explicit.
Because a panic reverts every write of the call, a source function that
mutates and panics later is observationally identical to one that performs
all checks first and then commits; the embeddings below use that committed
behavior (noted per function where the source order differs).

Machine integers: balances and amounts are `u128`, offer ids and market ids
are `u32`; both are embedded as `Nat` with explicit `< 2 ^ 128` / `< 2 ^ 32`
checks at every arithmetic operation that can overflow.  The repository's
build profile (its `Cargo.toml` is not under `src/`) decides whether Rust
release arithmetic panics or wraps on overflow; following the spec
("overflow is fatal", error `ArithmeticOverflow`), overflow-prone operations
are modelled as checked: this is the one spec-modelled ingredient, see
`credit_account`, `applyCredits` and `create_offer`.
-/

/-- NEAR account identifiers, embedded as strings. -/
abbrev AccountId := String

/-- Error taxonomy of the contract (spec section 7); in the source these are
`require!` / `env::panic_str` panic messages. -/
inductive ContractError where
  | InvalidAmount
  | NotFound
  | AlreadyClosed
  | NotOwner
  | AmountMismatch
  | SelfTrade
  | MarketNotFound
  | MarketClosed
  | NothingToWithdraw
  | ArithmeticOverflow
deriving Repr, DecidableEq

/-- `SharePair` struct: a matched long/short position holding `amount` from
each side (source lines 98-103). -/
structure SharePair where
  long : AccountId
  short : AccountId
  amount : Nat
deriving Repr, DecidableEq

/-- `Market` struct (source lines 57-64).  `shares` is the positions vector. -/
structure Market where
  id : Nat
  is_open : Bool
  description : String
  owner : AccountId
  shares : List SharePair
deriving Repr, DecidableEq

/-- `Offer` struct (source lines 66-74). -/
structure Offer where
  id : Nat
  market_id : Nat
  is_long : Bool
  account_id : AccountId
  amount : Nat
deriving Repr, DecidableEq

/-- Contract state (source lines 105-112): offer-id counter, market vector,
credit `LookupMap`, offer `UnorderedMap`.  The two maps are embedded as
association lists observed only through lookup/insert/remove. -/
structure Contract where
  next_offer_id : Nat
  markets : List Market
  credit : List (AccountId × Nat)
  offers : List (Nat × Offer)
deriving Repr, DecidableEq

/-- `Contract::new` (source lines 131-139): empty state. -/
def Contract.new : Contract :=
  { next_offer_id := 0, markets := [], credit := [], offers := [] }

/-- Association-list lookup (embeds `LookupMap`/`UnorderedMap` reads). -/
def alLookup {κ ν : Type} [DecidableEq κ] : List (κ × ν) → κ → Option ν
  | [], _ => none
  | e :: rest, k => if e.1 = k then some e.2 else alLookup rest k

/-- Association-list key removal (embeds `remove`). -/
def alRemove {κ ν : Type} [DecidableEq κ] : List (κ × ν) → κ → List (κ × ν)
  | [], _ => []
  | e :: rest, k => if e.1 = k then alRemove rest k else e :: alRemove rest k

/-- Association-list insert-or-overwrite (embeds `insert` / `entry` writes). -/
def alSet {κ ν : Type} [DecidableEq κ] (l : List (κ × ν)) (k : κ) (v : ν) :
    List (κ × ν) :=
  (k, v) :: alRemove l k

/-- Balance a ledger holds for `a`, reading a missing entry as 0 (the
`or_insert(0)` view in `credit_account`). -/
def balanceOf (credit : List (AccountId × Nat)) (a : AccountId) : Nat :=
  (alLookup credit a).getD 0

/-- The `u128` range bound. -/
def U128_MOD : Nat := 2 ^ 128

/-- The `u32` range bound. -/
def U32_MOD : Nat := 2 ^ 32

/-- `credit_account` (source lines 175-184):
`*self.credit.entry(account_id).or_insert(0) += amount`.
The addition is `u128`; modelled from the spec: overflow of the `+=` is a
fatal `ArithmeticOverflow` (the build profile fixing panic-on-overflow is
not under `src/`; the spec says overflow-checked addition, overflow fatal). -/
def credit_account (credit : List (AccountId × Nat)) (account_id : AccountId)
    (amount : Nat) : Except ContractError (List (AccountId × Nat)) :=
  if balanceOf credit account_id + amount < U128_MOD then
    .ok (alSet credit account_id (balanceOf credit account_id + amount))
  else
    .error .ArithmeticOverflow

/-- The `(winning_account, stake_amount)` list built by `close_market`
(source lines 230-243): winner is `long` when the market resolves long,
else `short`. -/
def creditsOf (is_long : Bool) (shares : List SharePair) :
    List (AccountId × Nat) :=
  shares.map (fun p => (if is_long then p.long else p.short, p.amount))

/-- The settlement loop of `close_market` (source lines 252-254):
`for (creditor, amount) in credits { self.credit_account(creditor, amount.0 * 2) }`.
The doubling `amount.0 * 2` is `u128` multiplication; modelled from the
spec as overflow-checked (fatal `ArithmeticOverflow`), like the addition
inside `credit_account`. -/
def applyCredits (credit : List (AccountId × Nat)) :
    List (AccountId × Nat) → Except ContractError (List (AccountId × Nat))
  | [] => .ok credit
  | (creditor, amount) :: rest =>
    if 2 * amount < U128_MOD then
      match credit_account credit creditor (2 * amount) with
      | .ok credit1 => applyCredits credit1 rest
      | .error e => .error e
    else
      .error .ArithmeticOverflow

/-- `create_market` (source lines 143-173): appends an open market whose id
is the current length of the market vector, owned by the caller. -/
def create_market (s : Contract) (description : String) (caller : AccountId) :
    Except ContractError (Market × Contract) :=
  let id := s.markets.length
  let m : Market :=
    { id := id, is_open := true, description := description, owner := caller,
      shares := [] }
  .ok (m, { s with markets := s.markets ++ [m] })

/-- `withdraw` (source lines 187-206): removes the caller's entire credit
entry and transfers it; panics `NothingToWithdraw` when no entry exists. -/
def withdraw (s : Contract) (caller : AccountId) :
    Except ContractError (Nat × Contract) :=
  match alLookup s.credit caller with
  | none => .error .NothingToWithdraw
  | some amount => .ok (amount, { s with credit := alRemove s.credit caller })

/-- `close_market` (source lines 208-255): `NotFound` when the market id is
unknown, `AlreadyClosed` when `is_open` is false, `NotOwner` when the caller
is not the owner; otherwise flips `is_open` and credits each position's
winner with twice its amount via `credit_account`. -/
def close_market (s : Contract) (market_id : Nat) (is_long : Bool)
    (caller : AccountId) : Except ContractError Contract :=
  match s.markets.get? market_id with
  | none => .error .NotFound
  | some m =>
    if m.is_open then
      if m.owner = caller then
        match applyCredits s.credit (creditsOf is_long m.shares) with
        | .ok credit1 =>
          .ok { s with
                  markets := s.markets.set market_id { m with is_open := false },
                  credit := credit1 }
        | .error e => .error e
      else .error .NotOwner
    else .error .AlreadyClosed

/-- `create_offer` (source lines 260-295): requires a nonzero attached
deposit (`InvalidAmount`), takes the next id from the `u32` counter
`next_offer_id`, increments the counter, stores the offer.  No check that
the target market exists or is open.  The `u32` increment
`self.next_offer_id += 1` is modelled from the spec as overflow-checked
(fatal), like all other arithmetic. -/
def create_offer (s : Contract) (market_id : Nat) (is_long : Bool)
    (caller : AccountId) (deposit : Nat) :
    Except ContractError (Offer × Contract) :=
  if deposit = 0 then .error .InvalidAmount
  else if s.next_offer_id + 1 < U32_MOD then
    let o : Offer :=
      { id := s.next_offer_id, market_id := market_id, is_long := is_long,
        account_id := caller, amount := deposit }
    .ok (o, { s with
                next_offer_id := s.next_offer_id + 1,
                offers := alSet s.offers s.next_offer_id o })
  else .error .ArithmeticOverflow

/-- `accept_offer` (source lines 297-347): requires a nonzero deposit
(`InvalidAmount`); the offer must exist (`NotFound`); the deposit must equal
the offer amount (`AmountMismatch`); the caller must not be the offer's
creator (`SelfTrade`); the offer's market must exist (`MarketNotFound`) —
the source comment says "check that market is still open" but the code only
checks existence, and then pushes the pair regardless of `is_open`.
The source removes the offer before the later checks; since any panic
reverts the whole call, the committed behavior equals this
check-first-then-commit form. -/
def accept_offer (s : Contract) (offer_id : Nat) (caller : AccountId)
    (deposit : Nat) : Except ContractError Contract :=
  if deposit = 0 then .error .InvalidAmount
  else
    match alLookup s.offers offer_id with
    | none => .error .NotFound
    | some o =>
      if o.amount = deposit then
        if caller = o.account_id then .error .SelfTrade
        else
          match s.markets.get? o.market_id with
          | none => .error .MarketNotFound
          | some m =>
            let pair : SharePair :=
              if o.is_long then
                { long := o.account_id, short := caller, amount := o.amount }
              else
                { long := caller, short := o.account_id, amount := o.amount }
            .ok { s with
                    offers := alRemove s.offers offer_id,
                    markets := s.markets.set o.market_id
                      { m with shares := m.shares ++ [pair] } }
      else .error .AmountMismatch

/-- Read-only market projection (`ViewMarket`, source lines 76-96). -/
structure ViewMarket where
  id : Nat
  is_open : Bool
  description : String
  owner : AccountId
  shares : Nat
deriving Repr, DecidableEq

/-- `From<&Market> for ViewMarket` (source lines 86-96). -/
def viewOf (m : Market) : ViewMarket :=
  { id := m.id, is_open := m.is_open, description := m.description,
    owner := m.owner, shares := m.shares.length }

/-- `get_market` view (source lines 356-358). -/
def get_market (s : Contract) (market_id : Nat) : Option ViewMarket :=
  (s.markets.get? market_id).map viewOf

/-- `list_markets` view (source lines 360-362). -/
def list_markets (s : Contract) : List ViewMarket :=
  s.markets.map viewOf

/-- `get_offers` view (source lines 364-375). -/
def get_offers (s : Contract) (market_id : Nat) : List Offer :=
  (s.offers.map (fun e => e.2)).filter (fun o => o.market_id == market_id)

/-- State committed by a `close_market` call under the host's rollback rule:
an erroring call commits nothing. -/
def runClose (s : Contract) (market_id : Nat) (is_long : Bool)
    (caller : AccountId) : Contract :=
  match close_market s market_id is_long caller with
  | .ok s1 => s1
  | .error _ => s

/-- State committed by an `accept_offer` call under rollback. -/
def runAccept (s : Contract) (offer_id : Nat) (caller : AccountId)
    (deposit : Nat) : Contract :=
  match accept_offer s offer_id caller deposit with
  | .ok s1 => s1
  | .error _ => s

/-- State committed by a `withdraw` call under rollback. -/
def runWithdraw (s : Contract) (caller : AccountId) : Contract :=
  match withdraw s caller with
  | .ok r => r.2
  | .error _ => s

/-- Sum of all escrowed offer amounts in the offer book. -/
def escrowSum (s : Contract) : Nat :=
  (s.offers.map (fun e => e.2.amount)).sum

/-- Escrow held by one market's positions: `2 * amount` per pair while the
market is open, nothing once it is closed (settlement paid the winners). -/
def marketOpenValue (m : Market) : Nat :=
  if m.is_open then (m.shares.map (fun p => 2 * p.amount)).sum else 0

/-- Escrow held by positions of all still-open markets. -/
def openSharesValue (s : Contract) : Nat :=
  (s.markets.map marketOpenValue).sum

/-- Sum of all credit-ledger balances. -/
def creditSum (s : Contract) : Nat :=
  (s.credit.map (fun e => e.2)).sum

/-- Left side of the spec's conservation equation: escrowed offers, plus
open-market position escrow, plus ledger balances, plus amounts already
withdrawn. -/
def conservedValue (s : Contract) (withdrawn : Nat) : Nat :=
  escrowSum s + openSharesValue s + creditSum s + withdrawn

/-- Amount won by `a` in a settlement credit list: the sum of the stake
amounts of the entries naming `a`. -/
def owedTo : List (AccountId × Nat) → AccountId → Nat
  | [], _ => 0
  | (b, amount) :: rest, a => (if b = a then amount else 0) + owedTo rest a

/-- Reachability invariant of the offer book: every stored key is below the
id counter (fresh ids are never reused). -/
def offerKeysBounded (s : Contract) : Prop :=
  ∀ e ∈ s.offers, e.1 < s.next_offer_id

/-! ## Concrete states used by the example theorems below -/

/-- Call sequence: create a market, create a long offer of 1 on it, close
the market (long wins, no positions yet), then accept the old offer. -/
def c1Trace : Except ContractError Contract := do
  let (_, s1) ← create_market Contract.new "rain" "owner"
  let (_, s2) ← create_offer s1 0 true "alice" 1
  let s3 ← close_market s2 0 true "owner"
  accept_offer s3 0 "bob" 1

/-- Call sequence: create a market, create a short offer of 5 on it, then
close the market while the offer is still pending. -/
def c2Closed : Except ContractError Contract := do
  let (_, s1) ← create_market Contract.new "snow" "carol"
  let (_, s2) ← create_offer s1 0 false "dave" 5
  close_market s2 0 true "carol"

/-- The state `c2Closed` reaches: market 0 closed, offer 0 still pending. -/
def c2s3 : Contract :=
  { next_offer_id := 1,
    markets := [{ id := 0, is_open := false, description := "snow",
                  owner := "carol", shares := [] }],
    credit := [],
    offers := [(0, { id := 0, market_id := 0, is_long := false,
                     account_id := "dave", amount := 5 })] }

/-- The state after accepting offer 0 of `c2s3`: the pair was appended to
the closed market and the offer is gone. -/
def c2s4 : Contract :=
  { next_offer_id := 1,
    markets := [{ id := 0, is_open := false, description := "snow",
                  owner := "carol",
                  shares := [{ long := "erin", short := "dave", amount := 5 }] }],
    credit := [], offers := [] }

/-- An open market in which the same long account won two positions, of
amounts 50 and 30 (the spec's no-netting scenario). -/
def c3Market : Market :=
  { id := 0, is_open := true, description := "two", owner := "owner",
    shares := [{ long := "alice", short := "bob", amount := 50 },
               { long := "alice", short := "carol", amount := 30 }] }

/-- State holding only `c3Market`, with an empty credit ledger. -/
def c3State : Contract :=
  { next_offer_id := 0, markets := [c3Market], credit := [], offers := [] }

/-- The state `close_market c3State 0 true "owner"` commits: market closed,
the long account credited 2*50 + 2*30 = 160. -/
def c3Closed : Contract :=
  { next_offer_id := 0,
    markets := [{ id := 0, is_open := false, description := "two",
                  owner := "owner",
                  shares := [{ long := "alice", short := "bob", amount := 50 },
                             { long := "alice", short := "carol",
                               amount := 30 }] }],
    credit := [("alice", 160)], offers := [] }

/-- A pending long offer of 5 by one account. -/
def c4Offer : Offer :=
  { id := 0, market_id := 0, is_long := true, account_id := "alice",
    amount := 5 }

/-- State holding only `c4Offer` in the offer book. -/
def c4State : Contract :=
  { next_offer_id := 1, markets := [], credit := [],
    offers := [(0, c4Offer)] }

/-- A market that is already closed. -/
def c5m0 : Market :=
  { id := 0, is_open := false, description := "done", owner := "owner",
    shares := [{ long := "alice", short := "bob", amount := 4 }] }

/-- A market that is still open, owned by "owner". -/
def c5m1 : Market :=
  { id := 1, is_open := true, description := "live", owner := "owner",
    shares := [] }

/-- State holding a closed market (id 0) and an open one (id 1). -/
def c5State : Contract :=
  { next_offer_id := 0, markets := [c5m0, c5m1], credit := [], offers := [] }

/-- State whose credit ledger owes one account 200. -/
def c6State : Contract :=
  { next_offer_id := 0, markets := [], credit := [("alice", 200)],
    offers := [] }

/-- A pending long offer of 5 on the open market of `c7State`. -/
def c7Offer : Offer :=
  { id := 0, market_id := 0, is_long := true, account_id := "alice",
    amount := 5 }

/-- State with one open market and the pending `c7Offer`. -/
def c7State : Contract :=
  { next_offer_id := 1,
    markets := [{ id := 0, is_open := true, description := "m",
                  owner := "owner", shares := [] }],
    credit := [], offers := [(0, c7Offer)] }

/-- The state after `accept_offer c7State 0 "bob" 5`: position recorded,
offer consumed. -/
def c7After : Contract :=
  { next_offer_id := 1,
    markets := [{ id := 0, is_open := true, description := "m",
                  owner := "owner",
                  shares := [{ long := "alice", short := "bob",
                               amount := 5 }] }],
    credit := [], offers := [] }

/-- State whose offer-id counter sits at the largest `u32` value. -/
def c8MaxState : Contract :=
  { next_offer_id := U32_MOD - 1, markets := [], credit := [], offers := [] }

/-- An open market holding one position whose doubled payout is exactly
`2 ^ 128`, one past the largest `u128`. -/
def c9Market : Market :=
  { id := 0, is_open := true, description := "big", owner := "owner",
    shares := [{ long := "alice", short := "bob", amount := 2 ^ 127 }] }

/-- State holding only `c9Market`, with an empty credit ledger. -/
def c9State : Contract :=
  { next_offer_id := 0, markets := [c9Market], credit := [], offers := [] }

/-- The market `create_market Contract.new "q" "ann"` returns. -/
def c10m : Market :=
  { id := 0, is_open := true, description := "q", owner := "ann",
    shares := [] }

/-- The state `create_market Contract.new "q" "ann"` commits. -/
def c10s1 : Contract :=
  { next_offer_id := 0, markets := [c10m], credit := [], offers := [] }

/-! ## Association-list lemmas -/

theorem alLookup_remove_self {κ ν : Type} [DecidableEq κ] (l : List (κ × ν))
    (k : κ) : alLookup (alRemove l k) k = none := by
  induction l with
  | nil => rfl
  | cons e rest ih =>
    by_cases he : e.1 = k
    · simp [alRemove, he, ih]
    · simp [alRemove, alLookup, he, ih]

theorem alLookup_remove_ne {κ ν : Type} [DecidableEq κ] (l : List (κ × ν))
    (k k' : κ) (h : k' ≠ k) :
    alLookup (alRemove l k) k' = alLookup l k' := by
  induction l with
  | nil => rfl
  | cons e rest ih =>
    have hkk : k ≠ k' := fun hx => h hx.symm
    by_cases he : e.1 = k
    · simp [alRemove, alLookup, he, hkk, ih]
    · by_cases he' : e.1 = k'
      · simp [alRemove, alLookup, he, he', h]
      · simp [alRemove, alLookup, he, he', ih]

theorem alLookup_set_self {κ ν : Type} [DecidableEq κ] (l : List (κ × ν))
    (k : κ) (v : ν) : alLookup (alSet l k v) k = some v := by
  simp [alSet, alLookup]

theorem alLookup_set_ne {κ ν : Type} [DecidableEq κ] (l : List (κ × ν))
    (k k' : κ) (v : ν) (h : k' ≠ k) :
    alLookup (alSet l k v) k' = alLookup l k' := by
  have : k ≠ k' := fun hx => h hx.symm
  simp [alSet, alLookup, this, alLookup_remove_ne l k k' h]

theorem alLookup_mem {κ ν : Type} [DecidableEq κ] (l : List (κ × ν))
    (k : κ) (v : ν) (h : alLookup l k = some v) : (k, v) ∈ l := by
  induction l with
  | nil => simp [alLookup] at h
  | cons e rest ih =>
    by_cases he : e.1 = k
    · simp [alLookup, he] at h
      have hev : e = (k, v) := by
        calc e = (e.1, e.2) := rfl
          _ = (k, v) := by rw [he, h]
      rw [hev]
      exact List.mem_cons_self _ _
    · simp [alLookup, he] at h
      right
      exact ih h

theorem balanceOf_set_self (l : List (AccountId × Nat)) (a : AccountId)
    (v : Nat) : balanceOf (alSet l a v) a = v := by
  simp [balanceOf, alLookup_set_self]

theorem balanceOf_set_ne (l : List (AccountId × Nat)) (a a' : AccountId)
    (v : Nat) (h : a' ≠ a) : balanceOf (alSet l a v) a' = balanceOf l a' := by
  simp [balanceOf, alLookup_set_ne l a a' v h]

/-! ## Settlement-fold lemmas -/

theorem applyCredits_error (credit : List (AccountId × Nat))
    (l : List (AccountId × Nat)) (e : ContractError)
    (h : applyCredits credit l = .error e) : e = .ArithmeticOverflow := by
  induction l generalizing credit with
  | nil => simp [applyCredits] at h
  | cons p rest ih =>
    obtain ⟨creditor, amount⟩ := p
    by_cases h2 : 2 * amount < U128_MOD
    · simp only [applyCredits, if_pos h2] at h
      by_cases hc : balanceOf credit creditor + 2 * amount < U128_MOD
      · simp only [credit_account, if_pos hc] at h
        exact ih _ h
      · simp only [credit_account, if_neg hc] at h
        exact (Except.error.injEq _ _).mp h.symm
    · simp only [applyCredits, if_neg h2] at h
      exact (Except.error.injEq _ _).mp h.symm

theorem applyCredits_balance (l : List (AccountId × Nat))
    (credit credit1 : List (AccountId × Nat))
    (h : applyCredits credit l = .ok credit1) (a : AccountId) :
    balanceOf credit1 a = balanceOf credit a + 2 * owedTo l a := by
  induction l generalizing credit with
  | nil =>
    simp only [applyCredits] at h
    cases h
    simp [owedTo]
  | cons p rest ih =>
    obtain ⟨creditor, amount⟩ := p
    by_cases h2 : 2 * amount < U128_MOD
    · simp only [applyCredits, if_pos h2] at h
      by_cases hc : balanceOf credit creditor + 2 * amount < U128_MOD
      · simp only [credit_account, if_pos hc] at h
        have step := ih _ h
        by_cases ha : creditor = a
        · subst ha
          rw [step, balanceOf_set_self]
          simp [owedTo]
          ring
        · have hane : a ≠ creditor := fun hx => ha hx.symm
          rw [step, balanceOf_set_ne _ _ _ _ hane]
          simp [owedTo, ha]
      · simp only [credit_account, if_neg hc] at h
        exact absurd h (by simp)
    · simp only [applyCredits, if_neg h2] at h
      exact absurd h (by simp)

theorem applyCredits_bounded (l : List (AccountId × Nat))
    (credit credit1 : List (AccountId × Nat))
    (h : applyCredits credit l = .ok credit1) (a : AccountId)
    (hb : balanceOf credit a < U128_MOD) : balanceOf credit1 a < U128_MOD := by
  induction l generalizing credit with
  | nil =>
    simp only [applyCredits] at h
    cases h
    exact hb
  | cons p rest ih =>
    obtain ⟨creditor, amount⟩ := p
    by_cases h2 : 2 * amount < U128_MOD
    · simp only [applyCredits, if_pos h2] at h
      by_cases hc : balanceOf credit creditor + 2 * amount < U128_MOD
      · simp only [credit_account, if_pos hc] at h
        refine ih _ h ?_
        by_cases ha : creditor = a
        · subst ha
          rw [balanceOf_set_self]
          exact hc
        · have hane : a ≠ creditor := fun hx => ha hx.symm
          rw [balanceOf_set_ne _ _ _ _ hane]
          exact hb
      · simp only [credit_account, if_neg hc] at h
        exact absurd h (by simp)
    · simp only [applyCredits, if_neg h2] at h
      exact absurd h (by simp)

theorem alRemove_subset {κ ν : Type} [DecidableEq κ] (l : List (κ × ν))
    (k : κ) (e : κ × ν) (h : e ∈ alRemove l k) : e ∈ l := by
  induction l with
  | nil => simp [alRemove] at h
  | cons x rest ih =>
    by_cases hx : x.1 = k
    · simp only [alRemove, if_pos hx] at h
      exact List.mem_cons_of_mem _ (ih h)
    · simp only [alRemove, if_neg hx] at h
      rcases List.mem_cons.mp h with h1 | h1
      · rw [h1]
        exact List.mem_cons_self _ _
      · exact List.mem_cons_of_mem _ (ih h1)

/-! ## Claim theorems -/

/-- Claim C1.  The conservation-of-value invariant fails on the code: in
`c1Trace`, 1 + 1 = 2 units are deposited (one by the offer creator, one by
the acceptor), yet after the final `accept_offer` the conservation sum —
escrowed offers + 2*amount over open-market positions + credit balances +
amounts withdrawn (none here) — is 0.  The acceptance appended the position
to an already-closed market (whose positions do not count, settlement being
over) and consumed the offer, so both stakes vanished. -/
theorem C1_conservation_violation :
    ∃ s4 : Contract, c1Trace = .ok s4 ∧ conservedValue s4 0 = 0 ∧
      conservedValue s4 0 ≠ 1 + 1 :=
  ⟨{ next_offer_id := 1,
     markets := [{ id := 0, is_open := false, description := "rain",
                   owner := "owner",
                   shares := [{ long := "alice", short := "bob",
                                amount := 1 }] }],
     credit := [], offers := [] },
   rfl, by decide, by decide⟩

/-- Claim C2.  Contrary to the claim, `accept_offer` on an offer whose
market is already closed does not fail with `MarketClosed`: starting from
`c2s3` (market 0 closed, offer 0 pending), the acceptance succeeds, appends
a position to the closed market (its `positions` grow while `is_open` is
false), and consumes the offer.  The source's own comment says "check that
market is still open" but the code only checks existence. -/
theorem C2_accept_on_closed_market :
    c2Closed = .ok c2s3 ∧
    (c2s3.markets.get? 0).map Market.is_open = some false ∧
    accept_offer c2s3 0 "erin" 5 = .ok c2s4 ∧
    (c2s4.markets.get? 0).map (fun m => m.shares.length) = some 1 ∧
    alLookup c2s4.offers 0 = none :=
  ⟨rfl, by decide, rfl, by decide, by decide⟩

/-- Claim C3.  When `close_market` succeeds, every account's credit balance
grows by exactly twice the sum of the amounts of the positions it won —
each position credited independently, with no netting or deduplication. -/
theorem C3_close_credits_each_position (s : Contract) (market_id : Nat)
    (is_long : Bool) (caller : AccountId) (m : Market) (s1 : Contract)
    (hm : s.markets.get? market_id = some m)
    (hok : close_market s market_id is_long caller = .ok s1) (a : AccountId) :
    balanceOf s1.credit a =
      balanceOf s.credit a + 2 * owedTo (creditsOf is_long m.shares) a := by
  simp only [close_market, hm] at hok
  split at hok
  · split at hok
    · cases hac : applyCredits s.credit (creditsOf is_long m.shares) with
      | ok credit1 =>
        rw [hac] at hok
        simp only [Except.ok.injEq] at hok
        rw [← hok]
        exact applyCredits_balance _ _ _ hac a
      | error e =>
        rw [hac] at hok
        simp at hok
    · simp at hok
  · simp at hok

/-- Witness for C3: the spec's scenario — one market, two positions of
amounts 50 and 30 both won by the same long account — credits that account
exactly 2*50 + 2*30 = 160. -/
theorem C3_witness :
    c3State.markets.get? 0 = some c3Market ∧
    close_market c3State 0 true "owner" = .ok c3Closed ∧
    balanceOf c3Closed.credit "alice" =
      balanceOf c3State.credit "alice" +
        2 * owedTo (creditsOf true c3Market.shares) "alice" ∧
    balanceOf c3Closed.credit "alice" = 160 :=
  ⟨by decide, rfl,
   C3_close_credits_each_position c3State 0 true "owner" c3Market c3Closed
     (by decide) rfl "alice",
   by decide⟩

/-- Claim C4.  Accepting an existing offer with a positive attached amount
different from the offer's amount always fails with `AmountMismatch`, and
the committed state is unchanged: the offer is still in the book. -/
theorem C4_amount_mismatch (s : Contract) (offer_id : Nat) (o : Offer)
    (caller : AccountId) (deposit : Nat)
    (ho : alLookup s.offers offer_id = some o) (hpos : 0 < deposit)
    (hne : deposit ≠ o.amount) :
    accept_offer s offer_id caller deposit = .error .AmountMismatch ∧
    runAccept s offer_id caller deposit = s ∧
    alLookup (runAccept s offer_id caller deposit).offers offer_id = some o := by
  have hdz : deposit ≠ 0 := by omega
  have h1 : accept_offer s offer_id caller deposit = .error .AmountMismatch := by
    simp only [accept_offer, if_neg hdz, ho]
    rw [if_neg (fun hx => hne hx.symm)]
  exact ⟨h1, by simp [runAccept, h1], by simp [runAccept, h1, ho]⟩

/-- Witness for C4: accepting the stored offer of amount 5 with deposit 3
fails with `AmountMismatch` and the offer stays in the book. -/
theorem C4_witness :
    alLookup c4State.offers 0 = some c4Offer ∧
    0 < 3 ∧ (3 : Nat) ≠ c4Offer.amount ∧
    accept_offer c4State 0 "bob" 3 = .error .AmountMismatch ∧
    runAccept c4State 0 "bob" 3 = c4State ∧
    alLookup (runAccept c4State 0 "bob" 3).offers 0 = some c4Offer :=
  ⟨by decide, by decide, by decide,
   (C4_amount_mismatch c4State 0 c4Offer "bob" 3 (by decide) (by decide)
     (by decide)).1,
   (C4_amount_mismatch c4State 0 c4Offer "bob" 3 (by decide) (by decide)
     (by decide)).2.1,
   (C4_amount_mismatch c4State 0 c4Offer "bob" 3 (by decide) (by decide)
     (by decide)).2.2⟩

/-- Claim C5.  `close_market` fails with `NotFound` on a missing market,
`AlreadyClosed` on a market whose `is_open` is false, and `NotOwner` when
the caller is not the owner; an erroring call commits nothing, so the
market stays open after `NotOwner` and positions are untouched by a second
close. -/
theorem C5_close_market_failure_modes (s : Contract) (market_id : Nat)
    (is_long : Bool) (caller : AccountId) :
    (s.markets.get? market_id = none →
      close_market s market_id is_long caller = .error .NotFound) ∧
    (∀ m : Market, s.markets.get? market_id = some m → m.is_open = false →
      close_market s market_id is_long caller = .error .AlreadyClosed) ∧
    (∀ m : Market, s.markets.get? market_id = some m → m.is_open = true →
      m.owner ≠ caller →
      close_market s market_id is_long caller = .error .NotOwner) ∧
    (∀ e : ContractError, close_market s market_id is_long caller = .error e →
      runClose s market_id is_long caller = s) := by
  refine ⟨?_, ?_, ?_, ?_⟩
  · intro h
    unfold close_market
    rw [h]
  · intro m hm hcl
    simp only [close_market, hm, hcl]
    rfl
  · intro m hm hop hno
    simp only [close_market, hm, hop, if_true]
    exact if_neg hno
  · intro e he
    simp [runClose, he]

/-- Witness for C5: in `c5State`, closing the absent market 5 gives
`NotFound`, re-closing the closed market 0 gives `AlreadyClosed`, and a
non-owner closing the open market 1 gives `NotOwner` with the state
unchanged. -/
theorem C5_witness :
    c5State.markets.get? 5 = none ∧
    close_market c5State 5 true "owner" = .error .NotFound ∧
    close_market c5State 0 true "owner" = .error .AlreadyClosed ∧
    close_market c5State 1 true "mallory" = .error .NotOwner ∧
    runClose c5State 1 true "mallory" = c5State :=
  ⟨by decide,
   (C5_close_market_failure_modes c5State 5 true "owner").1 (by decide),
   (C5_close_market_failure_modes c5State 0 true "owner").2.1 c5m0 (by decide)
     (by decide),
   (C5_close_market_failure_modes c5State 1 true "mallory").2.2.1 c5m1
     (by decide) (by decide) (by decide),
   (C5_close_market_failure_modes c5State 1 true "mallory").2.2.2 .NotOwner
     ((C5_close_market_failure_modes c5State 1 true "mallory").2.2.1 c5m1
       (by decide) (by decide) (by decide))⟩

/-- Claim C6.  `withdraw` removes the caller's whole ledger entry (the key
is gone, not merely zeroed) and returns that amount; with no entry it fails
with `NothingToWithdraw`, so an immediately repeated withdraw always
fails. -/
theorem C6_withdraw_removes_entry (s : Contract) (caller : AccountId) :
    (alLookup s.credit caller = none →
      withdraw s caller = .error .NothingToWithdraw) ∧
    (∀ amount : Nat, alLookup s.credit caller = some amount →
      withdraw s caller =
        .ok (amount, { s with credit := alRemove s.credit caller }) ∧
      alLookup (alRemove s.credit caller) caller = none ∧
      withdraw { s with credit := alRemove s.credit caller } caller =
        .error .NothingToWithdraw) := by
  constructor
  · intro h
    simp [withdraw, h]
  · intro amount h
    refine ⟨by simp [withdraw, h], alLookup_remove_self _ _, ?_⟩
    simp [withdraw, alLookup_remove_self]

/-- Witness for C6: withdrawing a credited 200 removes the entry and a
second withdraw fails with `NothingToWithdraw`. -/
theorem C6_witness :
    alLookup c6State.credit "alice" = some 200 ∧
    (withdraw c6State "alice" =
      .ok (200, { c6State with credit := alRemove c6State.credit "alice" }) ∧
    alLookup (alRemove c6State.credit "alice") "alice" = none ∧
    withdraw { c6State with credit := alRemove c6State.credit "alice" }
        "alice" = .error .NothingToWithdraw) :=
  ⟨by decide, (C6_withdraw_removes_entry c6State "alice").2 200 (by decide)⟩

/-- Claim C7 (amended).  A successful `accept_offer` removes the offer;
afterwards any repeated acceptance of the same id with a positive attached
amount fails with `NotFound`, while a zero-amount call fails earlier with
`InvalidAmount`; either way the failed call commits nothing. -/
theorem C7_exactly_once_consumption (s : Contract) (offer_id : Nat)
    (caller : AccountId) (deposit : Nat) (s1 : Contract)
    (hok : accept_offer s offer_id caller deposit = .ok s1) :
    alLookup s1.offers offer_id = none ∧
    (∀ (c2 : AccountId) (d2 : Nat), 0 < d2 →
      accept_offer s1 offer_id c2 d2 = .error .NotFound ∧
      runAccept s1 offer_id c2 d2 = s1) ∧
    (∀ c2 : AccountId,
      accept_offer s1 offer_id c2 0 = .error .InvalidAmount ∧
      runAccept s1 offer_id c2 0 = s1) := by
  have hoffers : s1.offers = alRemove s.offers offer_id := by
    simp only [accept_offer] at hok
    split at hok
    · simp at hok
    · split at hok
      · simp at hok
      · split at hok
        · split at hok
          · simp at hok
          · split at hok
            · simp at hok
            · simp only [Except.ok.injEq] at hok
              rw [← hok]
        · simp at hok
  have hnone : alLookup s1.offers offer_id = none := by
    rw [hoffers]
    exact alLookup_remove_self _ _
  refine ⟨hnone, ?_, ?_⟩
  · intro c2 d2 hd2
    have hz : d2 ≠ 0 := by omega
    constructor
    · simp only [accept_offer, if_neg hz, hnone]
    · simp [runAccept, accept_offer, hz, hnone]
  · intro c2
    constructor
    · simp [accept_offer]
    · simp [runAccept, accept_offer]

/-- Witness for C7: after `c7State`'s offer is accepted once, a repeat
acceptance with a positive amount fails with `NotFound` and commits
nothing. -/
theorem C7_witness :
    accept_offer c7State 0 "bob" 5 = .ok c7After ∧ 0 < 7 ∧
    accept_offer c7After 0 "carol" 7 = .error .NotFound ∧
    runAccept c7After 0 "carol" 7 = c7After :=
  ⟨rfl, by decide,
   ((C7_exactly_once_consumption c7State 0 "bob" 5 c7After rfl).2.1 "carol" 7
     (by decide)).1,
   ((C7_exactly_once_consumption c7State 0 "bob" 5 c7After rfl).2.1 "carol" 7
     (by decide)).2⟩

/-- Counterexample for C7 as stated: after the offer is consumed, a second
acceptance with zero attached amount fails with `InvalidAmount` (the
deposit check runs before the lookup), not with `NotFound`. -/
theorem C7_counterexample :
    accept_offer c7State 0 "bob" 5 = .ok c7After ∧
    accept_offer c7After 0 "carol" 0 = .error .InvalidAmount ∧
    ContractError.InvalidAmount ≠ ContractError.NotFound :=
  ⟨rfl, rfl, by decide⟩

/-- Claim C8 (amended).  `create_offer` with amount 0 always fails with
`InvalidAmount`; with a positive amount it succeeds for every `market_id`
(no existence or openness validation) as long as the `u32` id counter can
still be incremented, handing out `next_offer_id` and bumping the counter,
which keeps ids unique and never reused (the freshness invariant
`offerKeysBounded` is preserved and the new id is absent from the book). -/
theorem C8_create_offer_spec (s : Contract) (market_id : Nat) (is_long : Bool)
    (caller : AccountId) (deposit : Nat) :
    create_offer s market_id is_long caller 0 = .error .InvalidAmount ∧
    (0 < deposit → s.next_offer_id + 1 < U32_MOD →
      ∃ (o : Offer) (s1 : Contract),
        create_offer s market_id is_long caller deposit = .ok (o, s1) ∧
        o.id = s.next_offer_id ∧ o.market_id = market_id ∧
        o.amount = deposit ∧
        s1.next_offer_id = s.next_offer_id + 1 ∧
        alLookup s1.offers o.id = some o ∧
        (offerKeysBounded s →
          alLookup s.offers o.id = none ∧ offerKeysBounded s1)) := by
  constructor
  · simp [create_offer]
  · intro hd hlt
    have hz : deposit ≠ 0 := by omega
    refine ⟨{ id := s.next_offer_id, market_id := market_id,
              is_long := is_long, account_id := caller, amount := deposit },
            { s with next_offer_id := s.next_offer_id + 1,
                     offers := alSet s.offers s.next_offer_id
                       { id := s.next_offer_id, market_id := market_id,
                         is_long := is_long, account_id := caller,
                         amount := deposit } },
            ?_, rfl, rfl, rfl, rfl, ?_, ?_⟩
    · simp only [create_offer, if_neg hz, if_pos hlt]
    · exact alLookup_set_self _ _ _
    · intro hb
      constructor
      · cases hl : alLookup s.offers s.next_offer_id with
        | none => rfl
        | some v =>
          exact absurd (hb _ (alLookup_mem _ _ _ hl)) (lt_irrefl _)
      · intro e he
        simp only [alSet] at he
        rcases List.mem_cons.mp he with h1 | h1
        · rw [h1]
          simp
        · have := hb _ (alRemove_subset _ _ _ h1)
          simp only at this ⊢
          omega

/-- Witness for C8: on the empty state, a positive-amount offer on a market
that does not even exist succeeds with id 0 and preserves id freshness. -/
theorem C8_witness :
    0 < 5 ∧ Contract.new.next_offer_id + 1 < U32_MOD ∧
    (∃ (o : Offer) (s1 : Contract),
      create_offer Contract.new 3 true "alice" 5 = .ok (o, s1) ∧
      o.id = Contract.new.next_offer_id ∧ o.market_id = 3 ∧ o.amount = 5 ∧
      s1.next_offer_id = Contract.new.next_offer_id + 1 ∧
      alLookup s1.offers o.id = some o ∧
      (offerKeysBounded Contract.new →
        alLookup Contract.new.offers o.id = none ∧ offerKeysBounded s1)) :=
  ⟨by decide, by decide,
   (C8_create_offer_spec Contract.new 3 true "alice" 5).2 (by decide)
     (by decide)⟩

/-- Counterexample for C8 as stated: when the `u32` offer-id counter sits at
its maximum, `create_offer` with a positive amount does not succeed — the
checked counter increment makes it fail with `ArithmeticOverflow`. -/
theorem C8_counterexample :
    0 < 7 ∧
    create_offer c8MaxState 0 true "alice" 7 = .error .ArithmeticOverflow :=
  ⟨by decide, rfl⟩

/-- Claim C9.  Settlement arithmetic rejects overflow: if paying some
account's winnings (twice its won stakes added onto its valid `u128`
balance) would leave the `u128` range, `close_market` fails fatally with
`ArithmeticOverflow` instead of wrapping. -/
theorem C9_settlement_rejects_overflow (s : Contract) (market_id : Nat)
    (is_long : Bool) (caller : AccountId) (m : Market) (a : AccountId)
    (hm : s.markets.get? market_id = some m) (hopen : m.is_open = true)
    (hown : m.owner = caller)
    (hval : balanceOf s.credit a < U128_MOD)
    (hov : U128_MOD ≤
      balanceOf s.credit a + 2 * owedTo (creditsOf is_long m.shares) a) :
    close_market s market_id is_long caller = .error .ArithmeticOverflow := by
  simp only [close_market, hm, hopen, hown, if_true, if_pos rfl]
  cases hac : applyCredits s.credit (creditsOf is_long m.shares) with
  | ok credit1 =>
    exfalso
    have h1 := applyCredits_balance _ _ _ hac a
    have h2 := applyCredits_bounded _ _ _ hac a hval
    omega
  | error e =>
    rw [applyCredits_error _ _ _ hac]

/-- Witness for C9: closing a market holding one position of amount
`2 ^ 127` (payout `2 ^ 128`, one past `u128::MAX`) fails with
`ArithmeticOverflow`. -/
theorem C9_witness :
    c9State.markets.get? 0 = some c9Market ∧
    c9Market.is_open = true ∧ c9Market.owner = "owner" ∧
    balanceOf c9State.credit "alice" < U128_MOD ∧
    U128_MOD ≤ balanceOf c9State.credit "alice" +
      2 * owedTo (creditsOf true c9Market.shares) "alice" ∧
    close_market c9State 0 true "owner" = .error .ArithmeticOverflow :=
  ⟨by decide, by decide, by decide, by decide, by decide,
   C9_settlement_rejects_overflow c9State 0 true "owner" c9Market "alice"
     (by decide) (by decide) (by decide) (by decide) (by decide)⟩

/-- Claim C10.  Only `accept_offer` ever removes an offer: a successful
`create_market`, `close_market` or `withdraw` leaves the offer book
literally unchanged, and a successful `create_offer` (from a state
satisfying the id-freshness invariant) preserves every stored offer; the
views (`get_market`, `list_markets`, `get_offers`) are pure reads with no
state output at all.  There is no cancellation or refund path. -/
theorem C10_only_accept_consumes_offers (s : Contract) :
    (∀ (d : String) (c : AccountId) (m : Market) (s1 : Contract),
      create_market s d c = .ok (m, s1) → s1.offers = s.offers) ∧
    (∀ (mid : Nat) (il : Bool) (c : AccountId) (dep : Nat) (o : Offer)
      (s1 : Contract),
      create_offer s mid il c dep = .ok (o, s1) → offerKeysBounded s →
      ∀ (k : Nat) (o0 : Offer), alLookup s.offers k = some o0 →
        alLookup s1.offers k = some o0) ∧
    (∀ (mid : Nat) (il : Bool) (c : AccountId) (s1 : Contract),
      close_market s mid il c = .ok s1 → s1.offers = s.offers) ∧
    (∀ (c : AccountId) (amount : Nat) (s1 : Contract),
      withdraw s c = .ok (amount, s1) → s1.offers = s.offers) := by
  refine ⟨?_, ?_, ?_, ?_⟩
  · intro d c m s1 h
    simp only [create_market, Except.ok.injEq, Prod.mk.injEq] at h
    rw [← h.2]
  · intro mid il c dep o s1 h hb k o0 hk
    simp only [create_offer] at h
    split at h
    · simp at h
    · split at h
      · simp only [Except.ok.injEq, Prod.mk.injEq] at h
        rw [← h.2]
        have hkmem := alLookup_mem _ _ _ hk
        have hklt := hb _ hkmem
        simp only at hklt
        have hkne : k ≠ s.next_offer_id := by omega
        show alLookup (alSet s.offers s.next_offer_id _) k = some o0
        rw [alLookup_set_ne _ _ _ _ hkne]
        exact hk
      · simp at h
  · intro mid il c s1 h
    simp only [close_market] at h
    split at h
    · simp at h
    · split at h
      · split at h
        · split at h
          · simp only [Except.ok.injEq] at h
            rw [← h]
          · simp at h
        · simp at h
      · simp at h
  · intro c amount s1 h
    simp only [withdraw] at h
    split at h
    · simp at h
    · simp only [Except.ok.injEq, Prod.mk.injEq] at h
      rw [← h.2]

/-- Witness for C10: `create_market` on the empty state leaves the (empty)
offer book unchanged. -/
theorem C10_witness :
    create_market Contract.new "q" "ann" = .ok (c10m, c10s1) ∧
    c10s1.offers = Contract.new.offers :=
  ⟨rfl,
   (C10_only_accept_consumes_offers Contract.new).1 "q" "ann" c10m c10s1 rfl⟩
